/-
Verification of the document retrieval and generation-contract subsystem of
the Learning-assistant repository, shallowly embedded in Lean 4.

Conventions of the embedding:
- Python dict fields that may be absent become `Option` fields; `d.get(k, v)`
  becomes `(field.getD v)`.
- Python string operations `upper`, `lower`, `strip` become `pyUpper`,
  `pyLower`, `pyStrip` below (the data is ASCII JSON field content).
- Python numbers are modelled as `Int` (JSON integers) and `ℚ` (scores and
  embedding coordinates); float rounding is not modelled.
- Fallible external calls (embedding API) are modelled as `Option`-returning
  functions; `none` stands for a raised exception that the source catches.
- File-system state (the persisted index and metadata sidecar) is modelled as
  a pair of partial maps from document id to content.
-/
import Mathlib

/-! ### Python string primitives

Lean's built-in `String.toUpper`, `String.toLower` and `String.trim` do not
reduce in the kernel, so the Python string methods are embedded as the
corresponding operations on the underlying character list. -/

/-- Python `str.upper()` on the ASCII field content handled here. -/
def pyUpper (s : String) : String := String.mk (s.data.map Char.toUpper)

/-- Python `str.lower()` on the ASCII field content handled here. -/
def pyLower (s : String) : String := String.mk (s.data.map Char.toLower)

/-- Python `str.strip()`: remove leading and trailing whitespace. -/
def pyStrip (s : String) : String :=
  String.mk (((s.data.dropWhile Char.isWhitespace).reverse.dropWhile
    Char.isWhitespace).reverse)

/-! ### Quiz agent (`learning_assistant/agents/quiz_agent.py`) -/

namespace QuizAgent

/-- Input-parameter normalization at the top of `QuizAgent.generate`:
`question_count = max(5, min(20, question_count))`. -/
def clampQuestionCount (n : Int) : Int :=
  max 5 (min 20 n)

/-- Input-parameter normalization at the top of `QuizAgent.generate`:
`difficulty = difficulty.lower()`, then replaced by `"medium"` when not in
`['easy', 'medium', 'hard']`. -/
def normalizeDifficulty (d : String) : String :=
  let dl := pyLower d
  if dl = "easy" ∨ dl = "medium" ∨ dl = "hard" then dl else "medium"

/-- A parsed quiz item as it comes out of the JSON parse: each expected key is
present with a string value, or absent. -/
structure QuizItemIn where
  question : Option String
  option_a : Option String
  option_b : Option String
  option_c : Option String
  option_d : Option String
  correct_answer : Option String
  explanation : Option String

/-- A validated quiz question as appended to the `validated` list in
`QuizAgent._validate_questions`. -/
structure QuizItemOut where
  question : String
  option_a : String
  option_b : String
  option_c : String
  option_d : String
  correct_answer : String
  explanation : String
  order : Nat
deriving DecidableEq

/-- The `valid_answers` set of `_validate_questions`. -/
def valid_answers : List String := ["A", "B", "C", "D"]

/-- The membership check `all(key in q for key in [...])`. -/
def hasRequiredKeys (q : QuizItemIn) : Bool :=
  q.question.isSome && q.option_a.isSome && q.option_b.isSome &&
    q.option_c.isSome && q.option_d.isSome && q.correct_answer.isSome

/-- One iteration of the loop body of `_validate_questions`, at input
position `i`: skip when a required key is missing, normalize the correct
answer with `.upper().strip()`, skip when it is not one of A/B/C/D, otherwise
emit the cleaned record with `order = i`. -/
def validateItem (i : Nat) (q : QuizItemIn) : Option QuizItemOut :=
  if hasRequiredKeys q then
    let correct := pyStrip (pyUpper (q.correct_answer.getD ""))
    if valid_answers.contains correct then
      some {
        question := pyStrip (q.question.getD "")
        option_a := pyStrip (q.option_a.getD "")
        option_b := pyStrip (q.option_b.getD "")
        option_c := pyStrip (q.option_c.getD "")
        option_d := pyStrip (q.option_d.getD "")
        correct_answer := correct
        explanation := pyStrip (q.explanation.getD "")
        order := i }
    else none
  else none

/-- The enumerated loop of `_validate_questions`, keeping the running index. -/
def validateQuestionsAux (i : Nat) : List QuizItemIn → List QuizItemOut
  | [] => []
  | q :: rest =>
    match validateItem i q with
    | some out => out :: validateQuestionsAux (i + 1) rest
    | none => validateQuestionsAux (i + 1) rest

/-- `QuizAgent._validate_questions`: enumerate from 0. -/
def validateQuestions (qs : List QuizItemIn) : List QuizItemOut :=
  validateQuestionsAux 0 qs

end QuizAgent

/-! ### Flashcard agent (`learning_assistant/agents/flashcard_agent.py`) -/

/-- Python `int(s)` on a string: strip whitespace, optional sign, then a
non-empty digit run; `none` models the raised `ValueError`. -/
def pyParseInt (s : String) : Option Int :=
  let t := (pyStrip s).data
  let signed : Bool × List Char :=
    match t with
    | '-' :: rest => (true, rest)
    | '+' :: rest => (false, rest)
    | _ => (false, t)
  let core := signed.2
  if core ≠ [] ∧ core.all Char.isDigit then
    let mag : Int := Int.ofNat (core.foldl (fun n c => n * 10 + (c.toNat - 48)) 0)
    some (if signed.1 then -mag else mag)
  else none

namespace FlashcardAgent

/-- The `priority` value found in a parsed flashcard dict: absent, a JSON
integer, or a JSON string. -/
inductive PriorityVal where
  | missing
  | int (n : Int)
  | str (s : String)

/-- A parsed flashcard as it comes out of the JSON parse. -/
structure CardIn where
  front : Option String
  back : Option String
  priority : PriorityVal

/-- A validated flashcard as appended to `validated` in
`FlashcardAgent._validate_flashcards`. -/
structure CardOut where
  front : String
  back : String
  priority : Int
  order : Nat
deriving DecidableEq

/-- The priority normalization of `_validate_flashcards`:
`card.get('priority', 3)`, `int(...)` on strings defaulting to 3 on
`ValueError`, then `max(1, min(5, priority))`. -/
def coercePriority (p : PriorityVal) : Int :=
  let v : Int :=
    match p with
    | .missing => 3
    | .int n => n
    | .str s => (pyParseInt s).getD 3
  max 1 (min 5 v)

/-- One iteration of the validation loop of `_validate_flashcards`, at
input position `i`: skip when `front` or `back` is absent or empty after
stripping, otherwise emit the cleaned record with `order = i`. -/
def validateCard (i : Nat) (c : CardIn) : Option CardOut :=
  if c.front.isSome && c.back.isSome then
    let front := pyStrip (c.front.getD "")
    let back := pyStrip (c.back.getD "")
    if front = "" ∨ back = "" then none
    else some { front := front, back := back,
                priority := coercePriority c.priority, order := i }
  else none

/-- The enumerated validation loop of `_validate_flashcards`. -/
def validateCardsAux (i : Nat) : List CardIn → List CardOut
  | [] => []
  | c :: rest =>
    match validateCard i c with
    | some out => out :: validateCardsAux (i + 1) rest
    | none => validateCardsAux (i + 1) rest

/-- The sort key relation of `validated.sort(key=lambda x: (x['priority'],
x['order']))`: lexicographic on the pair. -/
def cardLE (a b : CardOut) : Prop :=
  a.priority < b.priority ∨ (a.priority = b.priority ∧ a.order ≤ b.order)

instance : DecidableRel cardLE := fun a b => by
  unfold cardLE; infer_instance

/-- Reassignment of `order` after sorting: `card['order'] = i`. -/
def reassignOrders (cs : List CardOut) : List CardOut :=
  cs.enum.map (fun p => { p.2 with order := p.1 })

/-- `FlashcardAgent._validate_flashcards`: validate each card in input
order, sort by `(priority, order)`, reassign display orders. -/
def validateFlashcards (cs : List CardIn) : List CardOut :=
  reassignOrders ((validateCardsAux 0 cs).insertionSort cardLE)

end FlashcardAgent

/-! ### Evaluation agent (`learning_assistant/agents/evaluation_agent.py`) -/

namespace EvaluationAgent

/-- A parsed per-question record of the evaluation response. Scores are
modelled as rationals (`float(...)` coercion; rounding is not modelled).
`none` in `score_percentage` models an absent key, which `q.get(
'score_percentage', 0)` turns into `0`. -/
structure EvalQuestionIn where
  question_text : Option String
  student_answer : Option String
  ideal_answer : Option String
  feedback : Option String
  score_percentage : Option ℚ

/-- A question after the normalization loop of `generate_sync` added the
1-based `order` and clamped the score. -/
structure EvalQuestionOut where
  question_text : Option String
  student_answer : Option String
  ideal_answer : Option String
  feedback : Option String
  score_percentage : ℚ
  order : Nat
deriving DecidableEq

/-- The parsed top-level evaluation result dict. -/
structure EvalResultIn where
  questions : List EvalQuestionIn
  overall_score : Option ℚ
  general_feedback : Option String

/-- The structured outcome of `generate_sync` after parsing succeeded. -/
structure EvalOutcome where
  success : Bool
  questions : List EvalQuestionOut
  overall_score : ℚ
  general_feedback : String
  error : Option String
deriving DecidableEq

/-- The score normalization `max(0, min(100, float(...)))`. -/
def clampScore (q : ℚ) : ℚ := max 0 (min 100 q)

/-- The per-question normalization loop: `q['order'] = i + 1` and the score
clamp, in input order. -/
def normalizeQuestions (qs : List EvalQuestionIn) : List EvalQuestionOut :=
  qs.enum.map (fun p =>
    { question_text := p.2.question_text
      student_answer := p.2.student_answer
      ideal_answer := p.2.ideal_answer
      feedback := p.2.feedback
      score_percentage := clampScore (p.2.score_percentage.getD 0)
      order := p.1 + 1 })

/-- The validation tail of `EvaluationAgent.generate_sync`, applied to a
successfully parsed result: empty question list fails; otherwise questions
are normalized and a missing overall score is computed as the mean of the
per-question scores, while a supplied one is clamped. -/
def validateResult (r : EvalResultIn) : EvalOutcome :=
  if r.questions.isEmpty then
    { success := false, questions := [], overall_score := 0,
      general_feedback := "", error := some "No questions found in the answer sheet" }
  else
    let qs := normalizeQuestions r.questions
    let overall :=
      match r.overall_score with
      | none => (qs.map (fun q => q.score_percentage)).sum / (qs.length : ℚ)
      | some s => clampScore s
    { success := true, questions := qs, overall_score := overall,
      general_feedback := r.general_feedback.getD "Evaluation complete.",
      error := none }

end EvaluationAgent

/-! ### Flowchart agent (`learning_assistant/agents/flowchart_agent.py`) -/

namespace FlowchartAgent

/-- A parsed node dict. The `type` key is called `ntype` here (`type` is a
Lean keyword); `from`/`to` of edges become `fromId`/`toId` likewise. -/
structure NodeIn where
  id : Option String
  ntype : Option String
  label : Option String
deriving DecidableEq

/-- A parsed edge dict. -/
structure EdgeIn where
  fromId : Option String
  toId : Option String
  label : Option String
deriving DecidableEq

/-- A parsed flowchart dict. -/
structure FlowchartIn where
  title : Option String
  description : Option String
  nodes : List NodeIn
  edges : List EdgeIn
deriving DecidableEq

/-- A validated node. -/
structure NodeOut where
  id : String
  label : String
  ntype : String
deriving DecidableEq

/-- A validated edge. -/
structure EdgeOut where
  fromId : String
  toId : String
  label : String
deriving DecidableEq

/-- A validated flowchart as returned by `_validate_flowchart`. -/
structure FlowchartOut where
  title : String
  description : String
  nodes : List NodeOut
  edges : List EdgeOut
  node_count : Nat
  edge_count : Nat
deriving DecidableEq

/-- The `valid_types` set of `_validate_flowchart`. -/
def valid_types : List String := ["start", "end", "concept", "action", "decision"]

/-- One iteration of the node-validation loop: `str(node.get('id', ''))`,
lower-cased type defaulting to `concept`, stripped label; skip when id or
label is empty; unknown types are replaced by `concept`. -/
def validateNode (n : NodeIn) : Option NodeOut :=
  let node_id := n.id.getD ""
  let node_type := pyLower (n.ntype.getD "concept")
  let label := pyStrip (n.label.getD "")
  if node_id = "" ∨ label = "" then none
  else some { id := node_id, label := label,
              ntype := if valid_types.contains node_type then node_type else "concept" }

/-- One iteration of the edge-validation loop against the validated node id
set: the edge is kept exactly when both endpoints are known ids. -/
def validateEdge (ids : List String) (e : EdgeIn) : Option EdgeOut :=
  let from_id := e.fromId.getD ""
  let to_id := e.toId.getD ""
  let label := pyStrip (e.label.getD "")
  if ids.contains from_id ∧ ids.contains to_id then
    some { fromId := from_id, toId := to_id, label := label }
  else none

/-- `FlowchartAgent._validate_flowchart`. -/
def validateFlowchart (d : FlowchartIn) : FlowchartOut :=
  let nodes := d.nodes.filterMap validateNode
  let node_ids := nodes.map (fun n => n.id)
  let edges := d.edges.filterMap (validateEdge node_ids)
  { title := pyStrip (d.title.getD "Concept Flowchart")
    description := pyStrip (d.description.getD "")
    nodes := nodes
    edges := edges
    node_count := nodes.length
    edge_count := edges.length }

/-- The filtering step of `FlowchartAgent.generate`: validate every parsed
flowchart and keep those whose validated node list is non-empty. -/
def validFlowcharts (fcs : List FlowchartIn) : List FlowchartOut :=
  (fcs.map validateFlowchart).filter (fun fc => !fc.nodes.isEmpty)

end FlowchartAgent

/-! ### Agent registry (`learning_assistant/agents/registry.py`) -/

namespace AgentRegistry

/-- The observable outcome of a call to `AgentRegistry.get`: the Python
method either raises (`KeyError(msg)`) or returns an instance. -/
inductive GetOutcome (I : Type) where
  | raises (msg : String)
  | returns (inst : I)
deriving DecidableEq

/-- The mutable class state of `AgentRegistry`: the `_agents` table (names
to agent classes, type `A`) and the `_instances` cache (cache keys to
instances, type `I`). -/
structure RegistryState (A I : Type) where
  agents : List (String × A)
  instances : List (String × I)
deriving DecidableEq

/-- Dict lookup on an association list. -/
def lookup (l : List (String × β)) (k : String) : Option β :=
  (l.find? (fun p => p.1 = k)).map (fun p => p.2)

/-- The error message raised for an unknown agent name:
`f"Agent '{agent_name}' not found. Available agents: {available or 'none
registered'}"` with `available = ", ".join(cls._agents.keys())`. -/
def notFoundMessage (agents : List (String × A)) (name : String) : String :=
  let available := String.intercalate ", " (agents.map (fun p => p.1))
  "Agent \x27" ++ name ++ "\x27 not found. Available agents: " ++
    (if available = "" then "none registered" else available)

/-- `AgentRegistry.get` on the no-keyword-arguments path (the cache key is
then the lower-cased name itself): lower-case the name, raise `KeyError`
with the enumerating message when it is not registered, otherwise return
the cached instance or construct, cache and return a fresh one via `mk`. -/
def get (mk : A → I) (st : RegistryState A I) (name : String) :
    GetOutcome I × RegistryState A I :=
  let agent_name := pyLower name
  match lookup st.agents agent_name with
  | none => (.raises (notFoundMessage st.agents agent_name), st)
  | some cls =>
    match lookup st.instances agent_name with
    | some inst => (.returns inst, st)
    | none =>
      let inst := mk cls
      (.returns inst, { st with instances := st.instances ++ [(agent_name, inst)] })

end AgentRegistry

/-! ### Vector store service (`learning_assistant/services/vector_store.py`)

The FAISS flat L2 index is embedded as the list of its row vectors with
exact nearest-neighbor search by squared Euclidean distance, ascending, ties
broken by lower row index; coordinates are rationals. The file system is a
pair of partial maps from document id to the persisted artifact. -/

namespace VectorStore

/-- An embedding vector. -/
abbrev Vec := List ℚ

/-- Squared Euclidean distance, the metric of `faiss.IndexFlatL2`. -/
def sqDist (a b : Vec) : ℚ :=
  ((a.zip b).map (fun p => (p.1 - p.2) * (p.1 - p.2))).sum

/-- The persisted FAISS index file: the matrix of embedding row vectors. -/
structure FaissIndex where
  vectors : List Vec

/-- The persisted metadata sidecar (`{doc_id}.json`). -/
structure Metadata where
  chunks : List String
  chunk_count : Nat
  dimension : Nat
deriving DecidableEq

/-- The vector-store directory: which document ids currently have an index
file and a metadata file, and their contents. -/
@[ext]
structure StoreState where
  indexFile : String → Option FaissIndex
  metaFile : String → Option Metadata

/-- The injected embedding capability. `none` results model a raised
exception from the external API, which the source catches. -/
structure Embedder where
  embedDocuments : List String → Option (List Vec)
  embedQuery : String → Option Vec

/-- The service object: the optional embeddings model (set only when an API
key is configured) and the injected text splitter. -/
structure Service where
  embeddings : Option Embedder
  text_splitter : String → List String

/-- The lexicographic order on (distance to the query, row index) that
determines FAISS result order: ascending distance, ties by lower index. -/
def distRel (key : Nat → ℚ) (i j : Nat) : Prop :=
  key i < key j ∨ (key i = key j ∧ i ≤ j)

instance (key : Nat → ℚ) : DecidableRel (distRel key) := fun i j => by
  unfold distRel; infer_instance

/-- `index.search(query, k)` on a flat L2 index: the `k` row indices nearest
to the query paired with their squared distances, ascending, ties by lower
index. -/
def knnSearch (idx : FaissIndex) (q : Vec) (k : Nat) : List (Nat × ℚ) :=
  let key := fun i => sqDist q (idx.vectors.getD i [])
  (((List.range idx.vectors.length).insertionSort (distRel key)).take k).map
    (fun i => (i, key i))

/-- Result dict of `add_document`. -/
structure AddResult where
  success : Bool
  chunk_count : Nat
  error : Option String
deriving DecidableEq

/-- `VectorStoreService.add_document`: fail when no embeddings model is
configured, chunk the text, fail when no chunks result, embed all chunks
(an exception yields a caught failure), then write the index file and the
metadata sidecar for the document id, replacing any prior bundle. -/
def add_document (svc : Service) (st : StoreState) (doc_id text : String) :
    AddResult × StoreState :=
  match svc.embeddings with
  | none =>
    ({ success := false, chunk_count := 0,
       error := some "Embeddings model not configured. Check GEMINI_API_KEY." }, st)
  | some emb =>
    let chunks := svc.text_splitter text
    if chunks.isEmpty then
      ({ success := false, chunk_count := 0,
         error := some "No text chunks created from document." }, st)
    else
      match emb.embedDocuments chunks with
      | none =>
        ({ success := false, chunk_count := 0, error := some "embedding call failed" }, st)
      | some vecs =>
        let dimension := (vecs.headD []).length
        let st' : StoreState :=
          { indexFile := fun d => if d = doc_id then some ⟨vecs⟩ else st.indexFile d
            metaFile := fun d =>
              if d = doc_id then
                some { chunks := chunks, chunk_count := chunks.length,
                       dimension := dimension }
              else st.metaFile d }
        ({ success := true, chunk_count := chunks.length, error := none }, st')

/-- Result dict of `search`. -/
structure SearchResult where
  chunks : List String
  scores : List ℚ
  success : Bool
  error : Option String

/-- `VectorStoreService.search`: fail when no embeddings model is
configured or when either persisted artifact is missing; embed the query
(an exception yields a caught failure); query the index with
`k = min(top_k, len(chunks))` and keep the chunks whose returned row index
is in range (`if i < len(chunks)`), paired with the raw distances. -/
def search (svc : Service) (st : StoreState) (doc_id query : String)
    (top_k : Nat) : SearchResult :=
  match svc.embeddings with
  | none =>
    { chunks := [], scores := [], success := false,
      error := some "Embeddings model not configured." }
  | some emb =>
    match st.indexFile doc_id, st.metaFile doc_id with
    | some index, some metadata =>
      let chunks := metadata.chunks
      match emb.embedQuery query with
      | none =>
        { chunks := [], scores := [], success := false,
          error := some "embedding call failed" }
      | some qv =>
        let k := min top_k chunks.length
        let results := knnSearch index qv k
        let result_chunks :=
          ((results.map (fun p => p.1)).filter (fun i => i < chunks.length)).map
            (fun i => chunks.getD i "")
        let result_scores := results.map (fun p => p.2)
        { chunks := result_chunks, scores := result_scores,
          success := true, error := none }
    | _, _ =>
      { chunks := [], scores := [], success := false,
        error := some ("Document index not found for: " ++ doc_id) }

/-- Result dict of `get_all_chunks`. -/
structure ChunksResult where
  chunks : List String
  success : Bool
  error : Option String

/-- `VectorStoreService.get_all_chunks`: read the metadata sidecar alone. -/
def get_all_chunks (st : StoreState) (doc_id : String) : ChunksResult :=
  match st.metaFile doc_id with
  | none =>
    { chunks := [], success := false,
      error := some ("Document not found: " ++ doc_id) }
  | some metadata => { chunks := metadata.chunks, success := true, error := none }

/-- The chunk separator of `get_context_for_generation`. -/
def sectionSep : String := "\n\n---\n\n"

/-- `VectorStoreService.get_context_for_generation`: a truthy query routes
through `search`; otherwise the first `max_chunks` stored chunks are used;
any failure or empty chunk list yields the empty string. The Python
truthiness test `if query:` treats both `None` and `""` as falsy. -/
def get_context_for_generation (svc : Service) (st : StoreState)
    (doc_id : String) (query : Option String) (max_chunks : Nat) : String :=
  let result : Bool × List String :=
    match query with
    | some q =>
      if q ≠ "" then
        let r := search svc st doc_id q max_chunks
        (r.success, r.chunks)
      else
        let r := get_all_chunks st doc_id
        (r.success, if r.success then r.chunks.take max_chunks else r.chunks)
    | none =>
      let r := get_all_chunks st doc_id
      (r.success, if r.success then r.chunks.take max_chunks else r.chunks)
  if !result.1 ∨ result.2.isEmpty then ""
  else String.intercalate sectionSep result.2

/-- `VectorStoreService.delete_document`: unlink whichever of the two
artifacts exists and report `True`. -/
def delete_document (st : StoreState) (doc_id : String) : Bool × StoreState :=
  (true,
    { indexFile := fun d => if d = doc_id then none else st.indexFile d
      metaFile := fun d => if d = doc_id then none else st.metaFile d })

/-- `VectorStoreService.document_exists`: checks only the index file. -/
def document_exists (st : StoreState) (doc_id : String) : Bool :=
  (st.indexFile doc_id).isSome

end VectorStore

/-! ### Concrete inputs used to instantiate the theorems -/

/-- A store directory holding only the index file of `doc1`. -/
def stPartial : VectorStore.StoreState :=
  { indexFile := fun d => if d = "doc1" then some ⟨[[1]]⟩ else none
    metaFile := fun _ => none }

/-- A store directory holding the full bundle of `doc1`, with a single
chunk `"hello"`. -/
def stBundle : VectorStore.StoreState :=
  { indexFile := fun d => if d = "doc1" then some ⟨[[1]]⟩ else none
    metaFile := fun d =>
      if d = "doc1" then some { chunks := ["hello"], chunk_count := 1, dimension := 1 }
      else none }

/-- A service whose embeddings model is configured but whose external
embedding calls raise. -/
def svcFail : VectorStore.Service :=
  { embeddings := some { embedDocuments := fun _ => none, embedQuery := fun _ => none }
    text_splitter := fun _ => [] }

/-- An empty agent registry over trivial class and instance types. -/
def emptyReg : AgentRegistry.RegistryState Unit Unit :=
  { agents := [], instances := [] }

/-- A registry holding exactly the agent name `quiz`. -/
def oneReg : AgentRegistry.RegistryState Unit Unit :=
  { agents := [("quiz", ())], instances := [] }

instance : IsTotal FlashcardAgent.CardOut FlashcardAgent.cardLE := by
  constructor
  intro a b
  unfold FlashcardAgent.cardLE
  omega

instance : IsTrans FlashcardAgent.CardOut FlashcardAgent.cardLE := by
  constructor
  intro a b c hab hbc
  unfold FlashcardAgent.cardLE at *
  omega

/-- A parsed quiz item whose `correct_answer` is `"e"`. -/
def itemAnsE : QuizAgent.QuizItemIn :=
  { question := some "q?"
    option_a := some "a"
    option_b := some "b"
    option_c := some "c"
    option_d := some "d"
    correct_answer := some "e"
    explanation := none }

/-- A parsed quiz item whose `correct_answer` is `" b "`. -/
def itemAnsB : QuizAgent.QuizItemIn :=
  { question := some "q?"
    option_a := some "a"
    option_b := some "b"
    option_c := some "c"
    option_d := some "d"
    correct_answer := some " b "
    explanation := none }

/-- The validated record produced from `itemAnsB` at input position 0. -/
def outAnsB : QuizAgent.QuizItemOut :=
  { question := "q?"
    option_a := "a"
    option_b := "b"
    option_c := "c"
    option_d := "d"
    correct_answer := "B"
    explanation := ""
    order := 0 }

/-- A well-formed parsed flashcard with the given integer priority. -/
def cardP (p : Int) : FlashcardAgent.CardIn :=
  { front := some "f", back := some "b", priority := .int p }

/-- A parsed evaluation question with the given score. -/
def eqScore (s : ℚ) : EvaluationAgent.EvalQuestionIn :=
  { question_text := none
    student_answer := none
    ideal_answer := none
    feedback := none
    score_percentage := some s }

/-- A parsed evaluation result with three scored questions and no supplied
overall score. -/
def evalSample : EvaluationAgent.EvalResultIn :=
  { questions := [eqScore 100, eqScore 50, eqScore 0]
    overall_score := none
    general_feedback := none }

/-- A parsed flowchart with two valid nodes `1`, `2`, one edge referencing
the unknown node id `9`, and one edge between known ids. -/
def fcSample : FlowchartAgent.FlowchartIn :=
  { title := none
    description := none
    nodes := [{ id := some "1", ntype := some "start", label := some "Start" },
              { id := some "2", ntype := some "end", label := some "End" }]
    edges := [{ fromId := some "9", toId := some "2", label := none },
              { fromId := some "1", toId := some "2", label := none }] }

instance (key : Nat → ℚ) : IsTotal Nat (VectorStore.distRel key) := by
  constructor
  intro a b
  unfold VectorStore.distRel
  rcases lt_trichotomy (key a) (key b) with h | h | h
  · exact Or.inl (Or.inl h)
  · rcases Nat.le_total a b with hab | hab
    · exact Or.inl (Or.inr ⟨h, hab⟩)
    · exact Or.inr (Or.inr ⟨h.symm, hab⟩)
  · exact Or.inr (Or.inl h)

instance (key : Nat → ℚ) : IsTrans Nat (VectorStore.distRel key) := by
  constructor
  intro a b c hab hbc
  unfold VectorStore.distRel at *
  rcases hab with h1 | ⟨h1, h1le⟩ <;> rcases hbc with h2 | ⟨h2, h2le⟩
  · exact Or.inl (h1.trans h2)
  · exact Or.inl (by rw [← h2]; exact h1)
  · exact Or.inl (by rw [h1]; exact h2)
  · exact Or.inr ⟨h1.trans h2, le_trans h1le h2le⟩

/-- A store directory with no persisted documents. -/
def stEmpty : VectorStore.StoreState :=
  { indexFile := fun _ => none, metaFile := fun _ => none }

/-- An embedder whose external calls succeed, mapping every text to the
empty vector. -/
def embW : VectorStore.Embedder :=
  { embedDocuments := fun cs => some (cs.map (fun _ => []))
    embedQuery := fun _ => some [] }

/-- A service with the working embedder and a splitter producing two
chunks. -/
def svcW : VectorStore.Service :=
  { embeddings := some embW
    text_splitter := fun _ => ["c1", "c2"] }

/-! ### Claim theorems -/

/-- Claim C9: `delete_document` is idempotent — a second delete of the same
id reproduces the result and state of the first, the call always reports
success, and deleting an id with no stored bundle is not an error. -/
theorem delete_document_idempotent (st : VectorStore.StoreState) (doc_id : String) :
    VectorStore.delete_document (VectorStore.delete_document st doc_id).2 doc_id
      = VectorStore.delete_document st doc_id ∧
    (VectorStore.delete_document st doc_id).1 = true := by
  refine ⟨?_, rfl⟩
  unfold VectorStore.delete_document
  refine Prod.ext rfl ?_
  dsimp only
  ext d
  · by_cases h : d = doc_id <;> simp [h]
  · by_cases h : d = doc_id <;> simp [h]

/-- Claim C10, counterexample: the difficulty string `"HARD"` is outside
`{easy, medium, hard}` but is not replaced by `"medium"`; it is lower-cased
to `"hard"` instead. -/
theorem normalize_difficulty_case_cex :
    ("HARD" ∉ (["easy", "medium", "hard"] : List String)) ∧
    QuizAgent.normalizeDifficulty "HARD" = "hard" ∧
    QuizAgent.normalizeDifficulty "HARD" ≠ "medium" := by
  decide

/-- Claim C10, amended: `question_count` is clamped to `[5, 20]` (values
below 5 become 5, values above 20 become 20, values inside are kept), and
the difficulty string is lower-cased first; only when the lower-cased value
is outside `{easy, medium, hard}` is it replaced by `"medium"`. -/
theorem quiz_generate_param_clamp_spec (n : Int) (d : String) :
    5 ≤ QuizAgent.clampQuestionCount n ∧
    QuizAgent.clampQuestionCount n ≤ 20 ∧
    (n < 5 → QuizAgent.clampQuestionCount n = 5) ∧
    (5 ≤ n → n ≤ 20 → QuizAgent.clampQuestionCount n = n) ∧
    (20 < n → QuizAgent.clampQuestionCount n = 20) ∧
    (pyLower d ∉ ["easy", "medium", "hard"] →
      QuizAgent.normalizeDifficulty d = "medium") ∧
    (pyLower d ∈ ["easy", "medium", "hard"] →
      QuizAgent.normalizeDifficulty d = pyLower d) := by
  have hmem : pyLower d ∈ ["easy", "medium", "hard"] ↔
      (pyLower d = "easy" ∨ pyLower d = "medium" ∨ pyLower d = "hard") := by
    simp
  refine ⟨?_, ?_, ?_, ?_, ?_, ?_, ?_⟩
  · unfold QuizAgent.clampQuestionCount
    simp only [le_max_iff]
    omega
  · unfold QuizAgent.clampQuestionCount
    simp only [max_le_iff, min_le_iff]
    omega
  · intro h
    unfold QuizAgent.clampQuestionCount
    omega
  · intro h1 h2
    unfold QuizAgent.clampQuestionCount
    omega
  · intro h
    unfold QuizAgent.clampQuestionCount
    omega
  · intro h
    rw [hmem] at h
    unfold QuizAgent.normalizeDifficulty
    rw [if_neg]
    push_neg at h
    simpa using h
  · intro h
    rw [hmem] at h
    unfold QuizAgent.normalizeDifficulty
    rw [if_pos]
    simpa using h

/-- Claim C10 witness: at `question_count = 3` the clamp yields 5, and at
difficulty `"LOUD"` (lower-cased `"loud"`, not a valid difficulty) the
normalization yields `"medium"`. -/
theorem quiz_generate_param_clamp_spec_witness :
    QuizAgent.clampQuestionCount 3 = 5 ∧
    QuizAgent.normalizeDifficulty "LOUD" = "medium" := by
  refine ⟨(quiz_generate_param_clamp_spec 3 "LOUD").2.2.1 (by decide),
    (quiz_generate_param_clamp_spec 3 "LOUD").2.2.2.2.2.1 (by decide)⟩

/-- Claim C8, counterexample: with only the serialized index file present
for `doc1` (no metadata sidecar), `document_exists` reports the document as
indexed even though `search` fails with a not-found error, so not every
operation treats partial presence as "not indexed". -/
theorem document_exists_partial_presence_cex :
    VectorStore.document_exists stPartial "doc1" = true ∧
    stPartial.metaFile "doc1" = none ∧
    (VectorStore.search svcFail stPartial "doc1" "q" 5).success = false ∧
    (VectorStore.search svcFail stPartial "doc1" "q" 5).error
      = some "Document index not found for: doc1" := by
  decide

/-- Claim C8, amended: `search` treats a document as indexed only when both
persisted artifacts are present — if either is missing it fails and returns
no chunks — but `document_exists` itself checks only the index file, so a
document with only the index file present is reported as indexed. -/
theorem document_exists_index_only_spec (st : VectorStore.StoreState) (doc_id : String) :
    VectorStore.document_exists st doc_id = (st.indexFile doc_id).isSome ∧
    (∀ (svc : VectorStore.Service) (query : String) (top_k : Nat),
      st.indexFile doc_id = none ∨ st.metaFile doc_id = none →
      (VectorStore.search svc st doc_id query top_k).success = false ∧
      (VectorStore.search svc st doc_id query top_k).chunks = []) := by
  refine ⟨rfl, ?_⟩
  intro svc query top_k h
  unfold VectorStore.search
  rcases hsvc : svc.embeddings with _ | emb
  · exact ⟨rfl, rfl⟩
  · rcases h with h | h
    · rw [h]
      rcases st.metaFile doc_id with _ | m <;> exact ⟨rfl, rfl⟩
    · rw [h]
      rcases st.indexFile doc_id with _ | i <;> exact ⟨rfl, rfl⟩

/-- Claim C8 witness: on the store holding only the index file of `doc1`,
`document_exists` agrees with index-file presence and `search` fails. -/
theorem document_exists_index_only_spec_witness :
    VectorStore.document_exists stPartial "doc1" = (stPartial.indexFile "doc1").isSome ∧
    (VectorStore.search svcFail stPartial "doc1" "q" 5).success = false := by
  exact ⟨(document_exists_index_only_spec stPartial "doc1").1,
    ((document_exists_index_only_spec stPartial "doc1").2 svcFail "q" 5
      (Or.inr (by decide))).1⟩

/-- Claim C7, counterexample: looking up the unregistered name `quiz` makes
`AgentRegistry.get` raise a `KeyError` (here: the `raises` outcome) instead
of returning a structured failure result; the message does enumerate the
registered names (none here). -/
theorem registry_get_raises_cex :
    AgentRegistry.get (fun _ => ()) emptyReg "quiz" =
      (AgentRegistry.GetOutcome.raises
        "Agent \x27quiz\x27 not found. Available agents: none registered", emptyReg) := by
  decide

/-- Claim C7, amended: for every name whose lower-casing is not a
registered key, `AgentRegistry.get` raises a `KeyError` — an exception, not
a structured failure result — whose message enumerates the currently
registered names (or says `none registered` when the table is empty), and
leaves the registry state unchanged. -/
theorem registry_get_unknown_name_spec (A I : Type) (mk : A → I)
    (st : AgentRegistry.RegistryState A I) (name : String)
    (h : AgentRegistry.lookup st.agents (pyLower name) = none) :
    AgentRegistry.get mk st name =
      (AgentRegistry.GetOutcome.raises
        ("Agent \x27" ++ pyLower name ++ "\x27 not found. Available agents: " ++
          (if String.intercalate ", " (st.agents.map (fun p => p.1)) = ""
           then "none registered"
           else String.intercalate ", " (st.agents.map (fun p => p.1)))), st) := by
  unfold AgentRegistry.get
  dsimp only
  rw [h]
  rfl

/-- Claim C7 witness: on a registry holding exactly the agent `quiz`, the
lookup of `summary` raises with a message enumerating `quiz`. -/
theorem registry_get_unknown_name_spec_witness :
    AgentRegistry.get (fun _ => ()) oneReg "summary" =
      (AgentRegistry.GetOutcome.raises
        "Agent \x27summary\x27 not found. Available agents: quiz", oneReg) := by
  have h := registry_get_unknown_name_spec Unit Unit (fun _ => ()) oneReg "summary"
    (by decide)
  rw [h]
  decide

/-- Claim C1, counterexample: the bundle of `doc1` exists and holds the
chunk `"hello"`, the search step fails (the external embedding call
raises), yet `get_context_for_generation` with a non-empty query returns
empty text instead of falling back to the first `max_chunks` stored
chunks (which would produce `"hello"`). -/
theorem get_context_no_fallback_cex :
    stBundle.metaFile "doc1"
      = some { chunks := ["hello"], chunk_count := 1, dimension := 1 } ∧
    (VectorStore.search svcFail stBundle "doc1" "q" 10).success = false ∧
    VectorStore.get_context_for_generation svcFail stBundle "doc1" (some "q") 10 = "" ∧
    VectorStore.get_context_for_generation svcFail stBundle "doc1" none 10 = "hello" := by
  decide

/-- Claim C1, amended: `get_context_for_generation` never reports an error
(it always returns plain text), and behaves as follows. With no query (or
an empty one) it falls back to the first `max_chunks` stored chunks in
original order, returning empty text when the bundle metadata is missing
or the chunk list is empty. With a non-empty query it returns the joined
search results, but when the search fails or returns no chunks it returns
empty text — it does not fall back to the stored chunks. -/
theorem get_context_characterization (svc : VectorStore.Service)
    (st : VectorStore.StoreState) (doc_id : String) (max_chunks : Nat) :
    (st.metaFile doc_id = none →
      VectorStore.get_context_for_generation svc st doc_id none max_chunks = "") ∧
    (∀ meta, st.metaFile doc_id = some meta →
      VectorStore.get_context_for_generation svc st doc_id none max_chunks =
        (if meta.chunks.take max_chunks = [] then ""
         else String.intercalate VectorStore.sectionSep (meta.chunks.take max_chunks))) ∧
    (∀ q : String, q ≠ "" →
      ((VectorStore.search svc st doc_id q max_chunks).success = false ∨
        (VectorStore.search svc st doc_id q max_chunks).chunks = [] →
        VectorStore.get_context_for_generation svc st doc_id (some q) max_chunks = "") ∧
      ((VectorStore.search svc st doc_id q max_chunks).success = true →
        (VectorStore.search svc st doc_id q max_chunks).chunks ≠ [] →
        VectorStore.get_context_for_generation svc st doc_id (some q) max_chunks =
          String.intercalate VectorStore.sectionSep
            (VectorStore.search svc st doc_id q max_chunks).chunks)) ∧
    (VectorStore.get_context_for_generation svc st doc_id (some "") max_chunks =
      VectorStore.get_context_for_generation svc st doc_id none max_chunks) := by
  refine ⟨?_, ?_, ?_, ?_⟩
  · intro h
    unfold VectorStore.get_context_for_generation VectorStore.get_all_chunks
    rw [h]
    rfl
  · intro meta h
    unfold VectorStore.get_context_for_generation VectorStore.get_all_chunks
    rw [h]
    dsimp only
    by_cases hc : meta.chunks.take max_chunks = []
    · simp [hc]
    · simp [hc]
  · intro q hq
    constructor
    · intro h
      unfold VectorStore.get_context_for_generation
      dsimp only
      rw [if_pos hq]
      rcases h with h | h
      · simp [h]
      · simp [h]
    · intro hs hc
      unfold VectorStore.get_context_for_generation
      dsimp only
      rw [if_pos hq]
      simp [hs, hc]
  · unfold VectorStore.get_context_for_generation
    dsimp only
    simp

/-- Claim C1 witness: on the single-chunk bundle of `doc1` with a failing
embedder, a queried call returns empty text while the query-less call
returns the stored chunk. -/
theorem get_context_characterization_witness :
    VectorStore.get_context_for_generation svcFail stBundle "doc1" (some "q") 10 = "" ∧
    VectorStore.get_context_for_generation svcFail stBundle "doc1" none 10 = "hello" := by
  have h := get_context_characterization svcFail stBundle "doc1" 10
  refine ⟨(h.2.2.1 "q" (by decide)).1 (Or.inl (by decide)), ?_⟩
  have h2 := h.2.1 { chunks := ["hello"], chunk_count := 1, dimension := 1 } (by decide)
  rw [h2]
  decide

/-- Characterization of a kept quiz item: all required keys present, the
normalized answer valid, `order` equal to the input position, explanation
defaulted to the empty string. -/
theorem quiz_validateItem_some (i : Nat) (q : QuizAgent.QuizItemIn)
    (out : QuizAgent.QuizItemOut) (h : QuizAgent.validateItem i q = some out) :
    QuizAgent.hasRequiredKeys q = true ∧
    out.order = i ∧
    out.correct_answer = pyStrip (pyUpper (q.correct_answer.getD "")) ∧
    out.correct_answer ∈ QuizAgent.valid_answers ∧
    out.explanation = pyStrip (q.explanation.getD "") := by
  unfold QuizAgent.validateItem at h
  by_cases h1 : QuizAgent.hasRequiredKeys q
  · rw [if_pos h1] at h
    dsimp only at h
    by_cases h2 : QuizAgent.valid_answers.contains (pyStrip (pyUpper (q.correct_answer.getD "")))
    · rw [if_pos h2] at h
      injection h with h
      subst h
      exact ⟨h1, rfl, rfl, List.elem_iff.mp h2, rfl⟩
    · rw [if_neg h2] at h
      exact absurd h (by simp)
  · rw [if_neg h1] at h
    exact absurd h (by simp)

/-- Characterization of a dropped quiz item: a required key is missing or
the normalized answer is not one of A/B/C/D. -/
theorem quiz_validateItem_none (i : Nat) (q : QuizAgent.QuizItemIn) :
    QuizAgent.validateItem i q = none ↔
      (QuizAgent.hasRequiredKeys q = false ∨
        pyStrip (pyUpper (q.correct_answer.getD "")) ∉ QuizAgent.valid_answers) := by
  unfold QuizAgent.validateItem
  by_cases h1 : QuizAgent.hasRequiredKeys q
  · by_cases h2 : QuizAgent.valid_answers.contains (pyStrip (pyUpper (q.correct_answer.getD "")))
    · simp [h1, h2, List.elem_iff.mp h2]
    · simp only [if_pos h1, if_neg h2]
      constructor
      · intro _
        exact Or.inr (fun hmem => h2 (List.elem_iff.mpr hmem))
      · intro _
        trivial
  · simp [h1]

/-- Every record emitted by the enumerated loop comes from an input
position: membership in `validateQuestionsAux i qs` is witnessed by an
offset `j` with `validateItem (i + j)` succeeding on the `j`-th input. -/
theorem quiz_aux_mem (qs : List QuizAgent.QuizItemIn) :
    ∀ (i : Nat) (out : QuizAgent.QuizItemOut),
      out ∈ QuizAgent.validateQuestionsAux i qs →
      ∃ j q, qs.get? j = some q ∧ QuizAgent.validateItem (i + j) q = some out := by
  induction qs with
  | nil =>
    intro i out h
    simp [QuizAgent.validateQuestionsAux] at h
  | cons q rest ih =>
    intro i out h
    unfold QuizAgent.validateQuestionsAux at h
    cases hv : QuizAgent.validateItem i q with
    | some o =>
      rw [hv] at h
      rcases List.mem_cons.mp h with h | h
      · subst h
        exact ⟨0, q, rfl, by simpa using hv⟩
      · rcases ih (i + 1) out h with ⟨j, q', hg, hvi⟩
        refine ⟨j + 1, q', by simpa using hg, ?_⟩
        have : i + (j + 1) = i + 1 + j := by omega
        rw [this]
        exact hvi
    | none =>
      rw [hv] at h
      rcases ih (i + 1) out h with ⟨j, q', hg, hvi⟩
      refine ⟨j + 1, q', by simpa using hg, ?_⟩
      have : i + (j + 1) = i + 1 + j := by omega
      rw [this]
      exact hvi

/-- Conversely, every input position on which `validateItem` succeeds
contributes its record to the enumerated loop's output. -/
theorem quiz_aux_complete (qs : List QuizAgent.QuizItemIn) :
    ∀ (i j : Nat) (q : QuizAgent.QuizItemIn) (out : QuizAgent.QuizItemOut),
      qs.get? j = some q → QuizAgent.validateItem (i + j) q = some out →
      out ∈ QuizAgent.validateQuestionsAux i qs := by
  induction qs with
  | nil =>
    intro i j q out hg
    simp at hg
  | cons q0 rest ih =>
    intro i j q out hg hv
    unfold QuizAgent.validateQuestionsAux
    cases j with
    | zero =>
      simp only [List.get?] at hg
      injection hg with hg
      subst hg
      rw [Nat.add_zero] at hv
      rw [hv]
      exact List.mem_cons_self _ _
    | succ j' =>
      have hg' : rest.get? j' = some q := by simpa using hg
      have hv' : QuizAgent.validateItem (i + 1 + j') q = some out := by
        have : i + 1 + j' = i + (j' + 1) := by omega
        rw [this]
        exact hv
      have hm := ih (i + 1) j' q out hg' hv'
      cases hval : QuizAgent.validateItem i q0 with
      | some o => exact List.mem_cons_of_mem _ hm
      | none => exact hm

/-- Every record in the enumerated loop's output has `order ≥ i`. -/
theorem quiz_aux_order_lb (qs : List QuizAgent.QuizItemIn) :
    ∀ (i : Nat) (out : QuizAgent.QuizItemOut),
      out ∈ QuizAgent.validateQuestionsAux i qs → i ≤ out.order := by
  intro i out h
  rcases quiz_aux_mem qs i out h with ⟨j, q, _, hv⟩
  have := (quiz_validateItem_some _ _ _ hv).2.1
  omega

/-- Display orders in the enumerated loop's output are strictly
increasing, i.e. records appear in input order. -/
theorem quiz_aux_orders_sorted (qs : List QuizAgent.QuizItemIn) :
    ∀ i : Nat, List.Pairwise (fun a b => a < b)
      ((QuizAgent.validateQuestionsAux i qs).map (fun o => o.order)) := by
  induction qs with
  | nil =>
    intro i
    simp [QuizAgent.validateQuestionsAux]
  | cons q rest ih =>
    intro i
    unfold QuizAgent.validateQuestionsAux
    cases hv : QuizAgent.validateItem i q with
    | none => exact ih (i + 1)
    | some o =>
      simp only [List.map_cons]
      refine List.Pairwise.cons ?_ (ih (i + 1))
      intro b hb
      rcases List.mem_map.mp hb with ⟨out, hout, rfl⟩
      have hlb := quiz_aux_order_lb rest (i + 1) out hout
      have ho := (quiz_validateItem_some _ _ _ hv).2.1
      omega

/-- Claim C3: the quiz validator keeps exactly the parsed items that supply
all required fields and whose `correct_answer`, upper-cased and trimmed,
is one of A/B/C/D; each kept record's explanation defaults to the empty
string, its display order is its zero-based input position, and records
appear in input order. In particular an item with `correct_answer` `"e"`
is dropped and one with `" b "` is kept as `"B"`. -/
theorem quiz_validator_spec (qs : List QuizAgent.QuizItemIn) :
    (∀ out ∈ QuizAgent.validateQuestions qs,
      ∃ q, qs.get? out.order = some q ∧
        QuizAgent.validateItem out.order q = some out) ∧
    (∀ (j : Nat) (q : QuizAgent.QuizItemIn), qs.get? j = some q →
      ∀ out, QuizAgent.validateItem j q = some out →
        out ∈ QuizAgent.validateQuestions qs) ∧
    List.Pairwise (fun a b => a < b)
      ((QuizAgent.validateQuestions qs).map (fun o => o.order)) ∧
    (∀ (i : Nat) (q : QuizAgent.QuizItemIn) (out : QuizAgent.QuizItemOut),
      QuizAgent.validateItem i q = some out →
      QuizAgent.hasRequiredKeys q = true ∧ out.order = i ∧
      out.correct_answer = pyStrip (pyUpper (q.correct_answer.getD "")) ∧
      out.correct_answer ∈ QuizAgent.valid_answers ∧
      out.explanation = pyStrip (q.explanation.getD "")) ∧
    (∀ (i : Nat) (q : QuizAgent.QuizItemIn),
      QuizAgent.validateItem i q = none ↔
        (QuizAgent.hasRequiredKeys q = false ∨
          pyStrip (pyUpper (q.correct_answer.getD "")) ∉ QuizAgent.valid_answers)) ∧
    QuizAgent.validateQuestions [itemAnsE] = [] ∧
    (QuizAgent.validateQuestions [itemAnsB]).map (fun o => o.correct_answer) = ["B"] := by
  refine ⟨?_, ?_, quiz_aux_orders_sorted qs 0, quiz_validateItem_some,
    quiz_validateItem_none, by decide, by decide⟩
  · intro out h
    rcases quiz_aux_mem qs 0 out h with ⟨j, q, hg, hv⟩
    rw [Nat.zero_add] at hv
    have horder := (quiz_validateItem_some _ _ _ hv).2.1
    rw [horder]
    exact ⟨q, hg, hv⟩
  · intro j q hg out hv
    exact quiz_aux_complete qs 0 j q out hg (by simpa using hv)

/-- Claim C3 witness: on the single-item lists built from the two spec
examples, the item with answer `"e"` is dropped and the `" b "` item is
kept, normalized to `"B"`, at order 0. -/
theorem quiz_validator_spec_witness :
    QuizAgent.validateQuestions [itemAnsE] = [] ∧
    outAnsB ∈ QuizAgent.validateQuestions [itemAnsB] := by
  refine ⟨(quiz_validator_spec [itemAnsE]).2.2.2.2.2.1, ?_⟩
  exact (quiz_validator_spec [itemAnsB]).2.1 0 itemAnsB rfl outAnsB (by decide)

/-- The normalized priority always lands in `[1, 5]`. -/
theorem flashcard_coercePriority_bounds (p : FlashcardAgent.PriorityVal) :
    1 ≤ FlashcardAgent.coercePriority p ∧ FlashcardAgent.coercePriority p ≤ 5 := by
  unfold FlashcardAgent.coercePriority
  refine ⟨le_max_left _ _, max_le (by norm_num) (min_le_left _ _)⟩

/-- Characterization of a kept flashcard: both sides present and non-empty
after stripping, priority normalized, `order` equal to the input position. -/
theorem flashcard_validateCard_some (i : Nat) (c : FlashcardAgent.CardIn)
    (out : FlashcardAgent.CardOut) (h : FlashcardAgent.validateCard i c = some out) :
    out.front = pyStrip (c.front.getD "") ∧
    out.back = pyStrip (c.back.getD "") ∧
    out.priority = FlashcardAgent.coercePriority c.priority ∧
    out.order = i ∧ out.front ≠ "" ∧ out.back ≠ "" := by
  unfold FlashcardAgent.validateCard at h
  by_cases h1 : c.front.isSome && c.back.isSome
  · rw [if_pos h1] at h
    dsimp only at h
    by_cases h2 : pyStrip (c.front.getD "") = "" ∨ pyStrip (c.back.getD "") = ""
    · rw [if_pos h2] at h
      exact absurd h (by simp)
    · rw [if_neg h2] at h
      injection h with h
      subst h
      push_neg at h2
      exact ⟨rfl, rfl, rfl, rfl, h2.1, h2.2⟩
  · rw [if_neg h1] at h
    exact absurd h (by simp)

/-- Every record produced by the flashcard validation loop has its priority
inside `[1, 5]`. -/
theorem flashcard_aux_priority_bounds (cs : List FlashcardAgent.CardIn) :
    ∀ (i : Nat) (out : FlashcardAgent.CardOut),
      out ∈ FlashcardAgent.validateCardsAux i cs →
      1 ≤ out.priority ∧ out.priority ≤ 5 := by
  induction cs with
  | nil =>
    intro i out h
    simp [FlashcardAgent.validateCardsAux] at h
  | cons c rest ih =>
    intro i out h
    unfold FlashcardAgent.validateCardsAux at h
    cases hv : FlashcardAgent.validateCard i c with
    | none =>
      rw [hv] at h
      exact ih (i + 1) out h
    | some o =>
      rw [hv] at h
      rcases List.mem_cons.mp h with h | h
      · subst h
        have := (flashcard_validateCard_some _ _ _ hv).2.2.1
        rw [this]
        exact flashcard_coercePriority_bounds c.priority
      · exact ih (i + 1) out h

/-- Mapping a field-projection that ignores `order` through the
order-reassignment step is the same as mapping it directly. -/
theorem flashcard_reassign_map {β : Type} (S : List FlashcardAgent.CardOut)
    (f : FlashcardAgent.CardOut → β)
    (hf : ∀ (c : FlashcardAgent.CardOut) (i : Nat), f { c with order := i } = f c) :
    (FlashcardAgent.reassignOrders S).map f = S.map f := by
  unfold FlashcardAgent.reassignOrders
  rw [List.map_map]
  have : (f ∘ fun p : Nat × FlashcardAgent.CardOut => { p.2 with order := p.1 })
      = f ∘ Prod.snd := by
    funext p
    exact hf p.2 p.1
  rw [this, ← List.map_map, List.enum_map_snd]

/-- The reassignment step numbers the final list `0, 1, 2, ...`. -/
theorem flashcard_reassign_orders (S : List FlashcardAgent.CardOut) :
    (FlashcardAgent.reassignOrders S).map (fun c => c.order) = List.range S.length := by
  unfold FlashcardAgent.reassignOrders
  rw [List.map_map]
  have : ((fun c : FlashcardAgent.CardOut => c.order) ∘
      fun p : Nat × FlashcardAgent.CardOut => { p.2 with order := p.1 })
      = Prod.fst := by
    funext p
    rfl
  rw [this, List.enum_map_fst]

/-- Length is preserved by the reassignment step. -/
theorem flashcard_reassign_length (S : List FlashcardAgent.CardOut) :
    (FlashcardAgent.reassignOrders S).length = S.length := by
  simp [FlashcardAgent.reassignOrders]

/-- Claim C4: the flashcard validator clamps every kept card's priority to
`[1, 5]` with 3 as the default for missing or unparsable values, sorts the
kept cards by (priority ascending, original input order) and reassigns
display orders `0, 1, 2, ...` after sorting; priorities `[5, 1, 3]` come
out as `[1, 3, 5]` with orders `[0, 1, 2]`. -/
theorem flashcard_validator_spec (cs : List FlashcardAgent.CardIn) :
    ((FlashcardAgent.validateFlashcards cs).map (fun c => c.order) =
      List.range (FlashcardAgent.validateFlashcards cs).length) ∧
    List.Pairwise (fun a b : FlashcardAgent.CardOut => a.priority ≤ b.priority)
      (FlashcardAgent.validateFlashcards cs) ∧
    (∀ c ∈ FlashcardAgent.validateFlashcards cs, 1 ≤ c.priority ∧ c.priority ≤ 5) ∧
    ((FlashcardAgent.validateFlashcards cs).map (fun c => (c.front, c.back, c.priority))
      = ((FlashcardAgent.validateCardsAux 0 cs).insertionSort
          FlashcardAgent.cardLE).map (fun c => (c.front, c.back, c.priority))) ∧
    List.Pairwise FlashcardAgent.cardLE
      ((FlashcardAgent.validateCardsAux 0 cs).insertionSort FlashcardAgent.cardLE) ∧
    ((FlashcardAgent.validateCardsAux 0 cs).insertionSort FlashcardAgent.cardLE).Perm
      (FlashcardAgent.validateCardsAux 0 cs) ∧
    FlashcardAgent.coercePriority .missing = 3 ∧
    (∀ s, pyParseInt s = none → FlashcardAgent.coercePriority (.str s) = 3) ∧
    (∀ n : Int, FlashcardAgent.coercePriority (.int n) = max 1 (min 5 n)) ∧
    (FlashcardAgent.validateFlashcards [cardP 5, cardP 1, cardP 3]).map
      (fun c => c.priority) = [1, 3, 5] ∧
    (FlashcardAgent.validateFlashcards [cardP 5, cardP 1, cardP 3]).map
      (fun c => c.order) = [0, 1, 2] := by
  have hsorted : List.Pairwise FlashcardAgent.cardLE
      ((FlashcardAgent.validateCardsAux 0 cs).insertionSort FlashcardAgent.cardLE) :=
    List.sorted_insertionSort FlashcardAgent.cardLE _
  have hperm := List.perm_insertionSort FlashcardAgent.cardLE
    (FlashcardAgent.validateCardsAux 0 cs)
  have hdef : FlashcardAgent.validateFlashcards cs
      = FlashcardAgent.reassignOrders ((FlashcardAgent.validateCardsAux 0 cs).insertionSort
          FlashcardAgent.cardLE) := rfl
  have h2 : List.Pairwise (fun a b : FlashcardAgent.CardOut => a.priority ≤ b.priority)
      ((FlashcardAgent.validateCardsAux 0 cs).insertionSort FlashcardAgent.cardLE) :=
    hsorted.imp (fun hab => by unfold FlashcardAgent.cardLE at hab; omega)
  refine ⟨?_, ?_, ?_, ?_, hsorted, hperm, rfl, ?_, fun n => rfl, by decide, by decide⟩
  · rw [hdef, flashcard_reassign_orders, flashcard_reassign_length]
  · rw [hdef]
    refine (List.pairwise_map
      (f := fun c : FlashcardAgent.CardOut => c.priority)
      (R := fun a b : Int => a ≤ b)).mp ?_
    rw [flashcard_reassign_map _ (fun c => c.priority) (fun c i => rfl)]
    exact (List.pairwise_map
      (f := fun c : FlashcardAgent.CardOut => c.priority)
      (R := fun a b : Int => a ≤ b)).mpr h2
  · intro c hc
    rw [hdef] at hc
    unfold FlashcardAgent.reassignOrders at hc
    rcases List.mem_map.mp hc with ⟨p, hp, rfl⟩
    have hmem : p.2 ∈ (FlashcardAgent.validateCardsAux 0 cs).insertionSort
        FlashcardAgent.cardLE :=
      List.get?_mem (List.mem_enum_iff_get?.mp hp)
    have hmem2 : p.2 ∈ FlashcardAgent.validateCardsAux 0 cs := hperm.mem_iff.mp hmem
    exact flashcard_aux_priority_bounds cs 0 p.2 hmem2
  · rw [hdef]
    exact flashcard_reassign_map _ _ (fun c i => rfl)
  · intro s hs
    unfold FlashcardAgent.coercePriority
    dsimp only
    rw [hs]
    rfl

/-- Claim C4 witness: a string priority that fails to parse defaults to 3,
and the three-card example sorts to priorities `[1, 3, 5]` with reassigned
orders `[0, 1, 2]`. -/
theorem flashcard_validator_spec_witness :
    FlashcardAgent.coercePriority (.str "abc") = 3 ∧
    (FlashcardAgent.validateFlashcards [cardP 5, cardP 1, cardP 3]).map
      (fun c => c.priority) = [1, 3, 5] ∧
    (FlashcardAgent.validateFlashcards [cardP 5, cardP 1, cardP 3]).map
      (fun c => c.order) = [0, 1, 2] := by
  refine ⟨(flashcard_validator_spec []).2.2.2.2.2.2.2.1 "abc" (by decide),
    (flashcard_validator_spec []).2.2.2.2.2.2.2.2.2.1,
    (flashcard_validator_spec []).2.2.2.2.2.2.2.2.2.2⟩

/-- The clamped score always lands in `[0, 100]`. -/
theorem eval_clampScore_bounds (s : ℚ) :
    0 ≤ EvaluationAgent.clampScore s ∧ EvaluationAgent.clampScore s ≤ 100 := by
  unfold EvaluationAgent.clampScore
  exact ⟨le_max_left _ _, max_le (by norm_num) (min_le_left _ _)⟩

/-- The normalization loop assigns the 1-based orders `1, ..., n`. -/
theorem eval_normalize_orders (qs : List EvaluationAgent.EvalQuestionIn) :
    (EvaluationAgent.normalizeQuestions qs).map (fun q => q.order)
      = List.range' 1 qs.length := by
  unfold EvaluationAgent.normalizeQuestions
  rw [List.map_map]
  have h1 : ((fun q : EvaluationAgent.EvalQuestionOut => q.order) ∘
      fun p : Nat × EvaluationAgent.EvalQuestionIn =>
        ({ question_text := p.2.question_text
           student_answer := p.2.student_answer
           ideal_answer := p.2.ideal_answer
           feedback := p.2.feedback
           score_percentage := EvaluationAgent.clampScore (p.2.score_percentage.getD 0)
           order := p.1 + 1 } : EvaluationAgent.EvalQuestionOut))
      = (fun n => n + 1) ∘ Prod.fst := by
    funext p
    rfl
  rw [h1, ← List.map_map, List.enum_map_fst, List.range'_eq_map_range]
  exact List.map_congr_left (fun a _ => Nat.add_comm a 1)

/-- On a non-empty question list the evaluation validator succeeds, keeps
the normalized questions, and derives a missing overall score as the mean
of the normalized per-question scores. -/
theorem eval_validateResult_nonempty (r : EvaluationAgent.EvalResultIn)
    (h : r.questions ≠ []) :
    (EvaluationAgent.validateResult r).questions
      = EvaluationAgent.normalizeQuestions r.questions ∧
    (EvaluationAgent.validateResult r).success = true ∧
    (EvaluationAgent.validateResult r).error = none ∧
    (r.overall_score = none →
      (EvaluationAgent.validateResult r).overall_score
        = ((EvaluationAgent.normalizeQuestions r.questions).map
            (fun q => q.score_percentage)).sum
          / ((EvaluationAgent.normalizeQuestions r.questions).length : ℚ)) := by
  have hie : r.questions.isEmpty = false := by
    cases hq : r.questions with
    | nil => exact absurd hq h
    | cons a l => rfl
  unfold EvaluationAgent.validateResult
  simp only [hie, Bool.false_eq_true, if_false]
  refine ⟨by trivial, by trivial, by trivial, ?_⟩
  intro h2
  rw [h2]

/-- Claim C5: the evaluation validator clamps every per-question score to
`[0, 100]`, fails on a zero-question result, assigns 1-based orders, and
when no overall score is supplied derives it as the arithmetic mean of the
clamped per-question scores (never defaulting to zero); scores
`[100, 50, 0]` yield `50`. -/
theorem evaluation_validator_spec (r : EvaluationAgent.EvalResultIn) :
    (r.questions = [] →
      (EvaluationAgent.validateResult r).success = false ∧
      (EvaluationAgent.validateResult r).error
        = some "No questions found in the answer sheet") ∧
    (r.questions ≠ [] →
      (EvaluationAgent.validateResult r).success = true ∧
      ((EvaluationAgent.validateResult r).questions.map (fun q => q.order)
        = List.range' 1 r.questions.length) ∧
      (∀ q ∈ (EvaluationAgent.validateResult r).questions,
        0 ≤ q.score_percentage ∧ q.score_percentage ≤ 100) ∧
      (r.overall_score = none →
        (EvaluationAgent.validateResult r).overall_score
          = (((EvaluationAgent.validateResult r).questions.map
              (fun q => q.score_percentage)).sum)
            / (((EvaluationAgent.validateResult r).questions.length : ℚ)))) ∧
    (EvaluationAgent.validateResult evalSample).overall_score = 50 ∧
    (EvaluationAgent.validateResult evalSample).questions.map (fun q => q.order)
      = [1, 2, 3] := by
  refine ⟨?_, ?_, ?_, ?_⟩
  · intro h
    unfold EvaluationAgent.validateResult
    rw [h]
    exact ⟨rfl, rfl⟩
  · intro h
    obtain ⟨hq, hs, _, hov⟩ := eval_validateResult_nonempty r h
    refine ⟨hs, ?_, ?_, ?_⟩
    · rw [hq, eval_normalize_orders]
    · intro q hmem
      rw [hq] at hmem
      unfold EvaluationAgent.normalizeQuestions at hmem
      rcases List.mem_map.mp hmem with ⟨p, _, rfl⟩
      exact eval_clampScore_bounds _
    · intro h2
      rw [hq]
      exact hov h2
  · have h := (eval_validateResult_nonempty evalSample (by simp [evalSample])).2.2.2 rfl
    rw [h]
    simp [EvaluationAgent.normalizeQuestions, evalSample, eqScore,
      EvaluationAgent.clampScore, List.enum]
    norm_num
  · have h := (eval_validateResult_nonempty evalSample (by simp [evalSample])).1
    rw [h, eval_normalize_orders]
    rfl

/-- Claim C5 witness: on the three-question sample with scores
`[100, 50, 0]` and no supplied overall score, validation succeeds, derives
the mean `50`, and numbers the questions `1, 2, 3`. -/
theorem evaluation_validator_spec_witness :
    (EvaluationAgent.validateResult evalSample).success = true ∧
    (EvaluationAgent.validateResult evalSample).overall_score = 50 ∧
    (EvaluationAgent.validateResult evalSample).questions.map (fun q => q.order)
      = [1, 2, 3] := by
  refine ⟨((evaluation_validator_spec evalSample).2.1 (by simp [evalSample])).1,
    (evaluation_validator_spec evalSample).2.2.1,
    (evaluation_validator_spec evalSample).2.2.2⟩

/-- Characterization of edge validation: an edge record is emitted exactly
when both endpoint ids are in the validated id set, and the record carries
the raw endpoint ids with a stripped label. -/
theorem flowchart_validateEdge_char (ids : List String) (e : FlowchartAgent.EdgeIn)
    (out : FlowchartAgent.EdgeOut) :
    FlowchartAgent.validateEdge ids e = some out ↔
      (out = { fromId := e.fromId.getD "", toId := e.toId.getD "",
               label := pyStrip (e.label.getD "") } ∧
       e.fromId.getD "" ∈ ids ∧ e.toId.getD "" ∈ ids) := by
  unfold FlowchartAgent.validateEdge
  dsimp only
  by_cases h : (ids.contains (e.fromId.getD "") = true) ∧
      (ids.contains (e.toId.getD "") = true)
  · rw [if_pos h]
    constructor
    · intro hh
      injection hh with hh
      exact ⟨hh.symm, List.elem_iff.mp h.1, List.elem_iff.mp h.2⟩
    · intro hh
      rw [hh.1]
  · rw [if_neg h]
    constructor
    · intro hh
      exact absurd hh (by simp)
    · intro hh
      exact absurd ⟨List.elem_iff.mpr hh.2.1, List.elem_iff.mpr hh.2.2⟩ h

/-- Claim C6: in every validated flowchart an edge appears in the output
exactly when both its endpoint ids are in that graph's validated node id
set (edges referencing unknown ids are silently dropped), and the
generation step drops a graph from the output list exactly when it retains
zero valid nodes; the spec's example edge `9 → 2` with unknown id `9` is
dropped while the graph itself is kept. -/
theorem flowchart_validator_spec (d : FlowchartAgent.FlowchartIn)
    (fcs : List FlowchartAgent.FlowchartIn) :
    (∀ e ∈ (FlowchartAgent.validateFlowchart d).edges,
      e.fromId ∈ (FlowchartAgent.validateFlowchart d).nodes.map (fun n => n.id) ∧
      e.toId ∈ (FlowchartAgent.validateFlowchart d).nodes.map (fun n => n.id)) ∧
    (∀ e ∈ d.edges,
      ((e.fromId.getD "" ∈ (FlowchartAgent.validateFlowchart d).nodes.map (fun n => n.id) ∧
        e.toId.getD "" ∈ (FlowchartAgent.validateFlowchart d).nodes.map (fun n => n.id)) ↔
      ({ fromId := e.fromId.getD "", toId := e.toId.getD "",
         label := pyStrip (e.label.getD "") } : FlowchartAgent.EdgeOut)
        ∈ (FlowchartAgent.validateFlowchart d).edges)) ∧
    (∀ fc ∈ FlowchartAgent.validFlowcharts fcs, fc.nodes ≠ []) ∧
    (∀ d' ∈ fcs, (FlowchartAgent.validateFlowchart d').nodes ≠ [] →
      FlowchartAgent.validateFlowchart d' ∈ FlowchartAgent.validFlowcharts fcs) ∧
    (∀ d' ∈ fcs, (FlowchartAgent.validateFlowchart d').nodes = [] →
      FlowchartAgent.validateFlowchart d' ∉ FlowchartAgent.validFlowcharts fcs) ∧
    (FlowchartAgent.validateFlowchart fcSample).edges
      = [{ fromId := "1", toId := "2", label := "" }] ∧
    FlowchartAgent.validFlowcharts [fcSample]
      = [FlowchartAgent.validateFlowchart fcSample] := by
  have hnodes : (FlowchartAgent.validateFlowchart d).nodes
      = d.nodes.filterMap FlowchartAgent.validateNode := rfl
  have hedges : (FlowchartAgent.validateFlowchart d).edges
      = d.edges.filterMap (FlowchartAgent.validateEdge
          ((d.nodes.filterMap FlowchartAgent.validateNode).map (fun n => n.id))) := rfl
  refine ⟨?_, ?_, ?_, ?_, ?_, by decide, by decide⟩
  · intro e he
    rw [hedges] at he
    rcases List.mem_filterMap.mp he with ⟨a, _, ha⟩
    rcases (flowchart_validateEdge_char _ a e).mp ha with ⟨heq, h1, h2⟩
    rw [hnodes, heq]
    exact ⟨h1, h2⟩
  · intro e he
    constructor
    · intro ⟨h1, h2⟩
      rw [hnodes] at h1 h2
      rw [hedges]
      exact List.mem_filterMap.mpr
        ⟨e, he, (flowchart_validateEdge_char _ e _).mpr ⟨rfl, h1, h2⟩⟩
    · intro hmem
      rw [hedges] at hmem
      rcases List.mem_filterMap.mp hmem with ⟨a, _, ha⟩
      rcases (flowchart_validateEdge_char _ a _).mp ha with ⟨heq, h1, h2⟩
      have hf : e.fromId.getD "" = a.fromId.getD "" := congrArg (fun x => x.fromId) heq
      have ht : e.toId.getD "" = a.toId.getD "" := congrArg (fun x => x.toId) heq
      rw [hnodes, hf, ht]
      exact ⟨h1, h2⟩
  · intro fc hfc
    have := List.mem_filter.mp hfc
    simpa using this.2
  · intro d' hd hne
    exact List.mem_filter.mpr ⟨List.mem_map_of_mem _ hd, by simpa using hne⟩
  · intro d' _ hnil hmem
    have := List.mem_filter.mp hmem
    rw [hnil] at this
    simp at this

/-- Claim C6 witness: in the sample graph the edge between known ids `1`
and `2` is kept, and the graph with its surviving nodes is returned. -/
theorem flowchart_validator_spec_witness :
    ({ fromId := "1", toId := "2", label := "" } : FlowchartAgent.EdgeOut)
      ∈ (FlowchartAgent.validateFlowchart fcSample).edges ∧
    FlowchartAgent.validFlowcharts [fcSample]
      = [FlowchartAgent.validateFlowchart fcSample] := by
  refine ⟨?_, (flowchart_validator_spec fcSample []).2.2.2.2.2.2⟩
  have h := ((flowchart_validator_spec fcSample []).2.1
    { fromId := some "1", toId := some "2", label := none } (by decide)).mp
    ⟨by decide, by decide⟩
  simpa using h

/-- The flat-index search returns `min k n` results. -/
theorem knn_length (idx : VectorStore.FaissIndex) (q : VectorStore.Vec) (k : Nat) :
    (VectorStore.knnSearch idx q k).length = min k idx.vectors.length := by
  unfold VectorStore.knnSearch
  simp [List.length_take, List.length_insertionSort]

/-- Every returned row index is in range, and every returned score is the
squared distance from the query to that row. -/
theorem knn_mem (idx : VectorStore.FaissIndex) (q : VectorStore.Vec) (k : Nat) :
    ∀ p ∈ VectorStore.knnSearch idx q k,
      p.1 < idx.vectors.length ∧
      p.2 = VectorStore.sqDist q (idx.vectors.getD p.1 []) := by
  unfold VectorStore.knnSearch
  intro p hp
  rcases List.mem_map.mp hp with ⟨i, hi, rfl⟩
  have h1 : i ∈ (List.range idx.vectors.length).insertionSort
      (VectorStore.distRel fun i => VectorStore.sqDist q (idx.vectors.getD i [])) :=
    List.mem_of_mem_take hi
  have h2 : i ∈ List.range idx.vectors.length :=
    (List.mem_insertionSort _).mp h1
  exact ⟨List.mem_range.mp h2, rfl⟩

/-- The returned scores are non-decreasing. -/
theorem knn_scores_sorted (idx : VectorStore.FaissIndex) (q : VectorStore.Vec) (k : Nat) :
    List.Sorted (fun a b : ℚ => a ≤ b)
      ((VectorStore.knnSearch idx q k).map (fun p => p.2)) := by
  unfold VectorStore.knnSearch
  rw [List.map_map]
  have hs : List.Pairwise
      (VectorStore.distRel fun i => VectorStore.sqDist q (idx.vectors.getD i []))
      ((List.range idx.vectors.length).insertionSort
        (VectorStore.distRel fun i => VectorStore.sqDist q (idx.vectors.getD i []))) :=
    List.sorted_insertionSort _ _
  have ht := hs.sublist (List.take_sublist k _)
  refine (List.pairwise_map).mpr (ht.imp ?_)
  intro a b hab
  rcases hab with h | ⟨h, _⟩
  · exact le_of_lt h
  · exact le_of_eq h

/-- Claim C2: after a successful build with at least one chunk, `search`
with a positive `top_k` and a successful query embedding succeeds and
returns exactly `min(top_k, chunk_count)` chunk/score pairs, the scores
non-decreasing, each pair consisting of a stored chunk and its raw squared
distance from the query embedding. The hypothesis `hlen` is the bundle
invariant that the external embedder returns one vector per chunk. -/
theorem search_after_build_bounded_sorted
    (svc : VectorStore.Service) (st : VectorStore.StoreState)
    (doc_id text query : String) (top_k : Nat)
    (emb : VectorStore.Embedder) (hemb : svc.embeddings = some emb)
    (vecs : List VectorStore.Vec)
    (hvecs : emb.embedDocuments (svc.text_splitter text) = some vecs)
    (hlen : vecs.length = (svc.text_splitter text).length)
    (hres : (VectorStore.add_document svc st doc_id text).1.success = true)
    (qv : VectorStore.Vec) (hq : emb.embedQuery query = some qv) :
    (VectorStore.search svc (VectorStore.add_document svc st doc_id text).2
        doc_id query top_k).success = true ∧
    (VectorStore.search svc (VectorStore.add_document svc st doc_id text).2
        doc_id query top_k).chunks.length
      = min top_k (VectorStore.add_document svc st doc_id text).1.chunk_count ∧
    (VectorStore.search svc (VectorStore.add_document svc st doc_id text).2
        doc_id query top_k).scores.length
      = min top_k (VectorStore.add_document svc st doc_id text).1.chunk_count ∧
    List.Sorted (fun a b : ℚ => a ≤ b)
      (VectorStore.search svc (VectorStore.add_document svc st doc_id text).2
        doc_id query top_k).scores ∧
    (VectorStore.search svc (VectorStore.add_document svc st doc_id text).2
        doc_id query top_k).chunks
      = (VectorStore.knnSearch ⟨vecs⟩ qv
          (min top_k (svc.text_splitter text).length)).map
          (fun p => (svc.text_splitter text).getD p.1 "") ∧
    (VectorStore.search svc (VectorStore.add_document svc st doc_id text).2
        doc_id query top_k).scores
      = (VectorStore.knnSearch ⟨vecs⟩ qv
          (min top_k (svc.text_splitter text).length)).map (fun p => p.2) ∧
    (∀ p ∈ VectorStore.knnSearch ⟨vecs⟩ qv
        (min top_k (svc.text_splitter text).length),
      p.1 < (svc.text_splitter text).length ∧
      p.2 = VectorStore.sqDist qv (vecs.getD p.1 [])) := by
  have hne : (svc.text_splitter text).isEmpty = false := by
    by_contra hc
    have hie : (svc.text_splitter text).isEmpty = true := by
      cases h : (svc.text_splitter text).isEmpty
      · exact absurd h hc
      · rfl
    unfold VectorStore.add_document at hres
    rw [hemb] at hres
    dsimp only at hres
    rw [hie] at hres
    simp at hres
  have hadd : VectorStore.add_document svc st doc_id text
      = ({ success := true, chunk_count := (svc.text_splitter text).length,
           error := none },
         { indexFile := fun d => if d = doc_id then some ⟨vecs⟩ else st.indexFile d
           metaFile := fun d =>
             if d = doc_id then
               some { chunks := svc.text_splitter text,
                      chunk_count := (svc.text_splitter text).length,
                      dimension := (vecs.headD []).length }
             else st.metaFile d }) := by
    unfold VectorStore.add_document
    rw [hemb]
    dsimp only
    rw [hne, hvecs]
    rfl
  rw [hadd]
  dsimp only
  unfold VectorStore.search
  rw [hemb]
  dsimp only
  rw [if_pos rfl, if_pos rfl]
  dsimp only
  rw [hq]
  dsimp only
  have hall : ∀ i ∈ (VectorStore.knnSearch ⟨vecs⟩ qv
      (min top_k (svc.text_splitter text).length)).map (fun p => p.1),
      decide (i < (svc.text_splitter text).length) = true := by
    intro i hi
    rcases List.mem_map.mp hi with ⟨p, hp, rfl⟩
    have := (knn_mem _ qv _ p hp).1
    simpa [hlen] using this
  have hfilter : ((VectorStore.knnSearch ⟨vecs⟩ qv
      (min top_k (svc.text_splitter text).length)).map (fun p => p.1)).filter
        (fun i => decide (i < (svc.text_splitter text).length))
      = (VectorStore.knnSearch ⟨vecs⟩ qv
          (min top_k (svc.text_splitter text).length)).map (fun p => p.1) :=
    List.filter_eq_self.mpr hall
  have hklen : (VectorStore.knnSearch ⟨vecs⟩ qv
      (min top_k (svc.text_splitter text).length)).length
      = min top_k (svc.text_splitter text).length := by
    rw [knn_length]
    dsimp only
    rw [hlen]
    omega
  refine ⟨rfl, ?_, ?_, knn_scores_sorted _ _ _, ?_, rfl, ?_⟩
  · rw [hfilter, List.length_map, List.length_map, hklen]
  · rw [List.length_map, hklen]
  · rw [hfilter, List.map_map]
    rfl
  · intro p hp
    have := knn_mem _ qv _ p hp
    exact ⟨by simpa [hlen] using this.1, this.2⟩

/-- Claim C2 witness: a two-chunk build followed by a `top_k = 1` search
succeeds with exactly one result and sorted scores. -/
theorem search_after_build_bounded_sorted_witness :
    (VectorStore.search svcW (VectorStore.add_document svcW stEmpty "d" "t").2
        "d" "q" 1).success = true ∧
    (VectorStore.search svcW (VectorStore.add_document svcW stEmpty "d" "t").2
        "d" "q" 1).chunks.length = 1 ∧
    List.Sorted (fun a b : ℚ => a ≤ b)
      (VectorStore.search svcW (VectorStore.add_document svcW stEmpty "d" "t").2
        "d" "q" 1).scores := by
  have h := search_after_build_bounded_sorted svcW stEmpty "d" "t" "q" 1
    embW rfl [[], []] rfl rfl rfl [] rfl
  exact ⟨h.1, by simpa using h.2.1, h.2.2.2.1⟩
